import Mathlib

/-!
Shallow embedding of the Circonus go-apiclient resource bindings vendored in
terraform-provider-circonus: `maintenance.go`, `annotation.go` and `user.go`.

Modelling conventions:
* Go strings are modelled as lists of characters (`Str`); `mkStr` injects a
  Lean string literal.
* The HTTP transport (`API.Get/Put/Post/Delete`) and the JSON decoder
  (`json.Unmarshal`) are external collaborators; they are passed in as a
  `World` of response/decoding functions, and every operation additionally
  returns the list of transport calls it issued.
* `json.Marshal` of the flat record structs is modelled concretely by the
  `...Json` functions, following the struct tags (field order, `omitempty`).
  Marshalling of these records cannot fail, so Go's dead `err != nil` branch
  after `json.Marshal` has no counterpart here.
* `regexp.MatchString` is applied only to constant patterns that compile, so
  its error branch is dead and omitted.
* The Go type `Annotation` and the functions named after it are rendered
  `Annot` (`fetchAnnot`, `updateAnnot`, ...); all other source names are kept.
* `errors.New`/`errors.Errorf` become `GoErr.mk`, `errors.Wrap e msg` becomes
  `GoErr.wrap e msg`.
-/

namespace Circonus

abbrev Str := List Char

def mkStr (s : String) : Str := s.data

/-- Errors as produced by the `github.com/pkg/errors` package: a plain message
or a wrapped cause with an added context message. -/
inductive GoErr where
  | mk (msg : Str)
  | wrap (cause : GoErr) (msg : Str)
deriving DecidableEq, Repr

/-- True exactly for errors produced by `errors.Wrap`. -/
def GoErr.isWrap : GoErr → Bool
  | .wrap _ _ => true
  | .mk _ => false

/-- JSON values, the wire form produced by `json.Marshal` on the record
structs (only the shapes those structs can produce). -/
inductive JVal where
  | str (s : Str)
  | num (n : Nat)
  | arr (elems : List JVal)
  | obj (fields : List (Str × JVal))

/-- Whether a JSON object carries a field with the given key. -/
def JVal.hasKey : JVal → Str → Bool
  | .obj fields, k => fields.any (fun p => decide (p.1 = k))
  | _, _ => false

/-- One transport call: method plus request path (plus body for writes). -/
inductive Call where
  | get (path : Str)
  | put (path : Str) (body : JVal)
  | post (path : Str) (body : JVal)
  | delete (path : Str)

/-- Modelled from the spec: the resource path prefixes are resource-specific
constants (`/maintenance`, `/annotation`, `/user`); the `config` package
holding them is not part of the vendored sources. -/
def maintenancePre : Str := mkStr "/maintenance"

def annotPre : Str := mkStr "/annotation"

def userPre : Str := mkStr "/user"

/-- Character class `[A-Za-z0-9]` of the CID patterns. -/
def isCIDChar (c : Char) : Bool := c.isAlpha || c.isDigit

/-- Modelled from the spec: each resource's CID regular expression is the
anchored pattern `^<prefix>/[A-Za-z0-9]+$` (spec section 8's concrete
scenario); the `config` package holding the patterns is not part of the
vendored sources.  `cidRegexMatch pre s` decides whether `s` matches the
pattern built from `pre`. -/
def cidRegexMatch (pre s : Str) : Bool :=
  pre.isPrefixOf s &&
    (match s.drop pre.length with
     | '/' :: c :: rest => isCIDChar c && rest.all isCIDChar
     | _ => false)

/-- The prefixing step shared by the fetch/delete operations: an identifier
already starting with the prefix is used as-is, otherwise `pre ++ "/" ++ c`
is constructed (`fmt.Sprintf("%s/%s", prefix, *cid)`). -/
def normalizeCID (pre c : Str) : Str :=
  if pre.isPrefixOf c then c else pre ++ '/' :: c

/-- Error text of `errors.Errorf("<label> (%s)", path)`. -/
def invalidCIDErr (label p : Str) : GoErr :=
  .mk (label ++ mkStr " (" ++ p ++ mkStr ")")

/-- Error text of `errors.New("<label> (none)")`. -/
def missingCIDErr (label : Str) : GoErr := .mk (label ++ mkStr " (none)")

/-- The CID resolution block repeated verbatim in every fetch/delete
operation: nil or empty identifiers are rejected, the identifier is
prefixed if necessary, and the result must match the resource pattern. -/
def resolveCID (label pre : Str) (cid : Option Str) : Except GoErr Str :=
  match cid with
  | none => .error (missingCIDErr label)
  | some c =>
    if c.isEmpty then .error (missingCIDErr label)
    else
      let full := normalizeCID pre c
      if cidRegexMatch pre full then .ok full
      else .error (invalidCIDErr label full)

def maintCIDLabel : Str := mkStr "invalid maintenance window CID"

def annotCIDLabel : Str := mkStr "invalid annotation CID"

def userCIDLabel : Str := mkStr "invalid user CID"

/-- The `Maintenance` struct.  `Severities` is `interface{}` holding either a
CSV string or a string list; Go's `Type` field is rendered `Type'`. -/
inductive SeverityVal where
  | csv (s : Str)
  | strs (l : List Str)
deriving DecidableEq, Repr

structure Maintenance where
  Severities : Option SeverityVal
  CID : Str
  Item : Str
  Notes : Str
  Type' : Str
  Tags : List Str
  Start : Nat
  Stop : Nat
deriving DecidableEq, Repr

structure Annot where
  Category : Str
  CID : Str
  Description : Str
  LastModifiedBy : Str
  Title : Str
  RelatedMetrics : List Str
  LastModified : Nat
  Created : Nat
  Start : Nat
  Stop : Nat
deriving DecidableEq, Repr

structure UserContactInfo where
  SMS : Str
  XMPP : Str
deriving DecidableEq, Repr

structure User where
  CID : Str
  ContactInfo : UserContactInfo
  Email : Str
  Firstname : Str
  Lastname : Str
deriving DecidableEq, Repr

def severitiesJson : SeverityVal → JVal
  | .csv s => .str s
  | .strs l => .arr (l.map .str)

/-- `json.Marshal` on `Maintenance`: struct field order, every field tagged
`omitempty` (empty string, zero number, empty slice and nil interface are
omitted). -/
def maintenanceJson (m : Maintenance) : JVal :=
  .obj
    ((match m.Severities with
      | none => []
      | some v => [(mkStr "severities", severitiesJson v)]) ++
     (if m.CID.isEmpty then [] else [(mkStr "_cid", .str m.CID)]) ++
     (if m.Item.isEmpty then [] else [(mkStr "item", .str m.Item)]) ++
     (if m.Notes.isEmpty then [] else [(mkStr "notes", .str m.Notes)]) ++
     (if m.Type'.isEmpty then [] else [(mkStr "type", .str m.Type')]) ++
     (if m.Tags.isEmpty then [] else [(mkStr "tags", .arr (m.Tags.map .str))]) ++
     (if m.Start = 0 then [] else [(mkStr "start", .num m.Start)]) ++
     (if m.Stop = 0 then [] else [(mkStr "stop", .num m.Stop)]))

/-- `json.Marshal` on `Annotation`: only `_cid`, `_last_modified_by`,
`_last_modified` and `_created` are tagged `omitempty`. -/
def annotJson (a : Annot) : JVal :=
  .obj
    ([(mkStr "category", .str a.Category)] ++
     (if a.CID.isEmpty then [] else [(mkStr "_cid", .str a.CID)]) ++
     [(mkStr "description", .str a.Description)] ++
     (if a.LastModifiedBy.isEmpty then []
      else [(mkStr "_last_modified_by", .str a.LastModifiedBy)]) ++
     [(mkStr "title", .str a.Title),
      (mkStr "rel_metrics", .arr (a.RelatedMetrics.map .str))] ++
     (if a.LastModified = 0 then [] else [(mkStr "_last_modified", .num a.LastModified)]) ++
     (if a.Created = 0 then [] else [(mkStr "_created", .num a.Created)]) ++
     [(mkStr "start", .num a.Start), (mkStr "stop", .num a.Stop)])

def userContactInfoJson (ci : UserContactInfo) : JVal :=
  .obj
    ((if ci.SMS.isEmpty then [] else [(mkStr "sms", .str ci.SMS)]) ++
     (if ci.XMPP.isEmpty then [] else [(mkStr "xmpp", .str ci.XMPP)]))

/-- `json.Marshal` on `User`: `_cid` is `omitempty`; `contact_info` is a
struct field, on which Go's `omitempty` has no effect, so it is always
emitted. -/
def userJson (u : User) : JVal :=
  .obj
    ((if u.CID.isEmpty then [] else [(mkStr "_cid", .str u.CID)]) ++
     [(mkStr "contact_info", userContactInfoJson u.ContactInfo),
      (mkStr "email", .str u.Email),
      (mkStr "firstname", .str u.Firstname),
      (mkStr "lastname", .str u.Lastname)])

/-- The external collaborators: transport responses keyed by request, and the
JSON decoding of response bodies into each record shape. -/
structure World where
  get : Str → Except GoErr Str
  put : Str → JVal → Except GoErr Str
  post : Str → JVal → Except GoErr Str
  delete : Str → Except GoErr Str
  decodeMaintenance : Str → Except GoErr Maintenance
  decodeMaintenanceList : Str → Except GoErr (List Maintenance)
  decodeAnnot : Str → Except GoErr Annot
  decodeAnnotList : Str → Except GoErr (List Annot)
  decodeUser : Str → Except GoErr User
  decodeUserList : Str → Except GoErr (List User)

/-! ### Maintenance window operations (`maintenance.go`) -/

/-- `API.FetchMaintenanceWindow` (the misspelling "maitenance" is the
source's). -/
def fetchMaintenanceWindow (w : World) (cid : Option Str) :
    Except GoErr Maintenance × List Call :=
  match resolveCID maintCIDLabel maintenancePre cid with
  | .error e => (.error e, [])
  | .ok p =>
    match w.get p with
    | .error e => (.error (.wrap e (mkStr "fetching maitenance window")), [.get p])
    | .ok result =>
      match w.decodeMaintenance result with
      | .error e => (.error (.wrap e (mkStr "parsing maintenance window")), [.get p])
      | .ok win => (.ok win, [.get p])

/-- `API.FetchMaintenanceWindows`. -/
def fetchMaintenanceWindows (w : World) :
    Except GoErr (List Maintenance) × List Call :=
  match w.get maintenancePre with
  | .error e =>
    (.error (.wrap e (mkStr "fetching maintenance windows")), [.get maintenancePre])
  | .ok result =>
    match w.decodeMaintenanceList result with
    | .error e =>
      (.error (.wrap e (mkStr "parsing maintenance windows")), [.get maintenancePre])
    | .ok ws => (.ok ws, [.get maintenancePre])

/-- `API.UpdateMaintenanceWindow`.  The CID taken from the record is matched
directly against the pattern, without the prefixing step of the fetch/delete
operations; the `Put` error is wrapped with the source's (mismatched)
message "parsing maintenance window", and the decode error is returned
unwrapped, both exactly as in the source. -/
def updateMaintenanceWindow (w : World) (cfg : Option Maintenance) :
    Except GoErr Maintenance × List Call :=
  match cfg with
  | none => (.error (.mk (mkStr "invalid maintenance window config (nil)")), [])
  | some m =>
    let maintenanceCID := m.CID
    if cidRegexMatch maintenancePre maintenanceCID then
      match w.put maintenanceCID (maintenanceJson m) with
      | .error e =>
        (.error (.wrap e (mkStr "parsing maintenance window")),
         [.put maintenanceCID (maintenanceJson m)])
      | .ok result =>
        match w.decodeMaintenance result with
        | .error e => (.error e, [.put maintenanceCID (maintenanceJson m)])
        | .ok win => (.ok win, [.put maintenanceCID (maintenanceJson m)])
    else (.error (invalidCIDErr maintCIDLabel maintenanceCID), [])

/-- `API.CreateMaintenanceWindow`. -/
def createMaintenanceWindow (w : World) (cfg : Option Maintenance) :
    Except GoErr Maintenance × List Call :=
  match cfg with
  | none => (.error (.mk (mkStr "invalid maintenance window config (nil)")), [])
  | some m =>
    match w.post maintenancePre (maintenanceJson m) with
    | .error e =>
      (.error (.wrap e (mkStr "creating maintenance window")),
       [.post maintenancePre (maintenanceJson m)])
    | .ok result =>
      match w.decodeMaintenance result with
      | .error e =>
        (.error (.wrap e (mkStr "parsing maintenance window")),
         [.post maintenancePre (maintenanceJson m)])
      | .ok win => (.ok win, [.post maintenancePre (maintenanceJson m)])

/-- `API.DeleteMaintenanceWindowByCID`.  Returns the `(bool, error)` pair. -/
def deleteMaintenanceWindowByCID (w : World) (cid : Option Str) :
    (Bool × Option GoErr) × List Call :=
  match resolveCID maintCIDLabel maintenancePre cid with
  | .error e => ((false, some e), [])
  | .ok p =>
    match w.delete p with
    | .error e =>
      ((false, some (.wrap e (mkStr "deleting maintenance window"))), [.delete p])
    | .ok _ => ((true, none), [.delete p])

/-- `API.DeleteMaintenanceWindow`. -/
def deleteMaintenanceWindow (w : World) (cfg : Option Maintenance) :
    (Bool × Option GoErr) × List Call :=
  match cfg with
  | none => ((false, some (.mk (mkStr "invalid maintenance window config (nil)"))), [])
  | some m => deleteMaintenanceWindowByCID w (some m.CID)

/-! ### Query strings (`net/url`)

`url.Values` is `map[string][]string`; `Encode` iterates its keys in sorted
order.  The map is modelled as an association list with pairwise-distinct
keys (the list order standing for the map's internal, unspecified order);
`Set`/`Add`/`Encode` are transcribed from `net/url`. -/

abbrev Values := List (Str × List Str)

/-- `url.Values.Add`: appends the value to the key's slice. -/
def Values.add (v : Values) (k val : Str) : Values :=
  if v.any (fun p => decide (p.1 = k)) then
    v.map (fun p => if p.1 = k then (p.1, p.2 ++ [val]) else p)
  else v ++ [(k, [val])]

/-- `url.Values.Set`: replaces the key's slice with the single value. -/
def Values.set (v : Values) (k val : Str) : Values :=
  if v.any (fun p => decide (p.1 = k)) then
    v.map (fun p => if p.1 = k then (p.1, [val]) else p)
  else v ++ [(k, [val])]

/-- `url.Values.Get`-style lookup of a key's whole slice (`v[k]`). -/
def Values.get (v : Values) (k : Str) : List Str :=
  match v.find? (fun p => decide (p.1 = k)) with
  | some p => p.2
  | none => []

def Values.keys (v : Values) : List Str := v.map Prod.fst

/-- Lexicographic byte order used by `sort.Strings` on the encoder's keys. -/
def strLe : Str → Str → Bool
  | [], _ => true
  | _ :: _, [] => false
  | a :: as, b :: bs => decide (a < b) || (decide (a = b) && strLe as bs)

def sortStrs (l : List Str) : List Str := l.mergeSort strLe

/-- Characters `url.QueryEscape` leaves unescaped. -/
def isUnreservedChar (c : Char) : Bool :=
  c.isAlpha || c.isDigit || c == '-' || c == '_' || c == '.' || c == '~'

/-- Uppercase hexadecimal digit, as emitted by `url.QueryEscape`. -/
def hexDigit (n : Nat) : Char :=
  if n < 10 then Char.ofNat (48 + n) else Char.ofNat (55 + n)

/-- `url.QueryEscape` on one character: unreserved characters kept, space
becomes `+`, anything else percent-encoded. -/
def escapeChar (c : Char) : Str :=
  if isUnreservedChar c then [c]
  else if c == ' ' then ['+']
  else ['%', hexDigit (c.toNat / 16 % 16), hexDigit (c.toNat % 16)]

def queryEscape (s : Str) : Str := s.flatMap escapeChar

/-- `url.Values.Encode`: keys sorted, each key's values in slice order,
`k=v` pairs joined by `&`. -/
def Values.encode (v : Values) : Str :=
  (mkStr "&").intercalate
    ((sortStrs v.keys).flatMap
      (fun k => (v.get k).map (fun x => queryEscape k ++ '=' :: queryEscape x)))

/-- The inner loop of the search functions: `for _, val := range criteria {
q.Add(filter, val) }`. -/
def addCriteria (v : Values) (p : Str × List Str) : Values :=
  p.2.foldl (fun acc val => acc.add p.1 val) v

/-- The outer loop over the filter map.  The list order of `fs` stands for
the map's unspecified iteration order. -/
def buildFilters (v : Values) (fs : List (Str × List Str)) : Values :=
  fs.foldl addCriteria v

/-- Proof artifact: the values the filter loops contribute to key `k`, in
iteration order. -/
def gatherVals (fs : List (Str × List Str)) (k : Str) : List Str :=
  fs.flatMap (fun p => if p.1 = k then p.2 else [])

/-- The `q.Set("search", ...)` step guarded by `searchCriteria != nil &&
*searchCriteria != ""`. -/
def searchBase (searchCriteria : Option Str) : Values :=
  match searchCriteria with
  | none => []
  | some s => if s.isEmpty then [] else Values.set [] (mkStr "search") s

/-- The whole query-building preamble shared by the search functions. -/
def searchQuery (searchCriteria : Option Str)
    (filterCriteria : Option (List (Str × List Str))) : Values :=
  match filterCriteria with
  | none => searchBase searchCriteria
  | some fs =>
    if 0 < fs.length then buildFilters (searchBase searchCriteria) fs
    else searchBase searchCriteria

/-- `url.URL{Path: p, RawQuery: q}.String()` for the simple paths used
here. -/
def urlWithQuery (path rawQuery : Str) : Str :=
  if rawQuery.isEmpty then path else path ++ '?' :: rawQuery

/-- `API.SearchMaintenanceWindows`. -/
def searchMaintenanceWindows (w : World) (searchCriteria : Option Str)
    (filterCriteria : Option (List (Str × List Str))) :
    Except GoErr (List Maintenance) × List Call :=
  let q := searchQuery searchCriteria filterCriteria
  if (Values.encode q).isEmpty then fetchMaintenanceWindows w
  else
    let reqURL := urlWithQuery maintenancePre (Values.encode q)
    match w.get reqURL with
    | .error e =>
      (.error (.wrap e (mkStr "searching maintenance windows")), [.get reqURL])
    | .ok result =>
      match w.decodeMaintenanceList result with
      | .error e =>
        (.error (.wrap e (mkStr "parsing maintenance windows")), [.get reqURL])
      | .ok ws => (.ok ws, [.get reqURL])

/-! ### Annotation operations (`annotation.go`; Go's `Annotation` is
rendered `Annot`) -/

/-- `API.FetchAnnotation`. -/
def fetchAnnot (w : World) (cid : Option Str) : Except GoErr Annot × List Call :=
  match resolveCID annotCIDLabel annotPre cid with
  | .error e => (.error e, [])
  | .ok p =>
    match w.get p with
    | .error e => (.error (.wrap e (mkStr "fetching annotation")), [.get p])
    | .ok result =>
      match w.decodeAnnot result with
      | .error e => (.error (.wrap e (mkStr "parsing annotation")), [.get p])
      | .ok an => (.ok an, [.get p])

/-- `API.FetchAnnotations`. -/
def fetchAnnots (w : World) : Except GoErr (List Annot) × List Call :=
  match w.get annotPre with
  | .error e => (.error (.wrap e (mkStr "fetching annotations")), [.get annotPre])
  | .ok result =>
    match w.decodeAnnotList result with
    | .error e => (.error (.wrap e (mkStr "parsing annotations")), [.get annotPre])
    | .ok ans => (.ok ans, [.get annotPre])

/-- `API.UpdateAnnotation`.  As in the other update operations the record's
CID is matched against the pattern as-is, without prefixing. -/
def updateAnnot (w : World) (cfg : Option Annot) : Except GoErr Annot × List Call :=
  match cfg with
  | none => (.error (.mk (mkStr "invalid annotation config (nil)")), [])
  | some a =>
    let annotationCID := a.CID
    if cidRegexMatch annotPre annotationCID then
      match w.put annotationCID (annotJson a) with
      | .error e =>
        (.error (.wrap e (mkStr "updating annotation")), [.put annotationCID (annotJson a)])
      | .ok result =>
        match w.decodeAnnot result with
        | .error e =>
          (.error (.wrap e (mkStr "parsing annotation")), [.put annotationCID (annotJson a)])
        | .ok an => (.ok an, [.put annotationCID (annotJson a)])
    else (.error (invalidCIDErr annotCIDLabel annotationCID), [])

/-- `API.CreateAnnotation`. -/
def createAnnot (w : World) (cfg : Option Annot) : Except GoErr Annot × List Call :=
  match cfg with
  | none => (.error (.mk (mkStr "invalid annotation config (nil)")), [])
  | some a =>
    match w.post annotPre (annotJson a) with
    | .error e =>
      (.error (.wrap e (mkStr "creating annotation")), [.post annotPre (annotJson a)])
    | .ok result =>
      match w.decodeAnnot result with
      | .error e =>
        (.error (.wrap e (mkStr "parsing annotation")), [.post annotPre (annotJson a)])
      | .ok an => (.ok an, [.post annotPre (annotJson a)])

/-- `API.DeleteAnnotationByCID`. -/
def deleteAnnotByCID (w : World) (cid : Option Str) :
    (Bool × Option GoErr) × List Call :=
  match resolveCID annotCIDLabel annotPre cid with
  | .error e => ((false, some e), [])
  | .ok p =>
    match w.delete p with
    | .error e => ((false, some (.wrap e (mkStr "deleting annotation"))), [.delete p])
    | .ok _ => ((true, none), [.delete p])

/-- `API.DeleteAnnotation`. -/
def deleteAnnot (w : World) (cfg : Option Annot) :
    (Bool × Option GoErr) × List Call :=
  match cfg with
  | none => ((false, some (.mk (mkStr "invalid annotation config (nil)"))), [])
  | some a => deleteAnnotByCID w (some a.CID)

/-- `API.SearchAnnotations`. -/
def searchAnnots (w : World) (searchCriteria : Option Str)
    (filterCriteria : Option (List (Str × List Str))) :
    Except GoErr (List Annot) × List Call :=
  let q := searchQuery searchCriteria filterCriteria
  if (Values.encode q).isEmpty then fetchAnnots w
  else
    let reqURL := urlWithQuery annotPre (Values.encode q)
    match w.get reqURL with
    | .error e => (.error (.wrap e (mkStr "searching annotations")), [.get reqURL])
    | .ok result =>
      match w.decodeAnnotList result with
      | .error e => (.error (.wrap e (mkStr "parsing annotations")), [.get reqURL])
      | .ok ans => (.ok ans, [.get reqURL])

/-! ### User operations (`user.go`) -/

/-- `API.FetchUser`.  A nil or empty CID is replaced by the sentinel path
`/user/current` instead of failing. -/
def fetchUser (w : World) (cid : Option Str) : Except GoErr User × List Call :=
  let userCID :=
    match cid with
    | none => userPre ++ mkStr "/current"
    | some c =>
      if c.isEmpty then userPre ++ mkStr "/current"
      else if !userPre.isPrefixOf c then userPre ++ '/' :: c
      else c
  if cidRegexMatch userPre userCID then
    match w.get userCID with
    | .error e => (.error (.wrap e (mkStr "fetching user")), [.get userCID])
    | .ok result =>
      match w.decodeUser result with
      | .error e => (.error (.wrap e (mkStr "parsing user")), [.get userCID])
      | .ok u => (.ok u, [.get userCID])
  else (.error (invalidCIDErr userCIDLabel userCID), [])

/-- `API.FetchUsers`. -/
def fetchUsers (w : World) : Except GoErr (List User) × List Call :=
  match w.get userPre with
  | .error e => (.error (.wrap e (mkStr "fetching users")), [.get userPre])
  | .ok result =>
    match w.decodeUserList result with
    | .error e => (.error (.wrap e (mkStr "parsing users")), [.get userPre])
    | .ok us => (.ok us, [.get userPre])

/-- `API.UpdateUser`.  As in the other update operations the record's CID is
matched against the pattern as-is, without prefixing. -/
def updateUser (w : World) (cfg : Option User) : Except GoErr User × List Call :=
  match cfg with
  | none => (.error (.mk (mkStr "invalid user config (nil)")), [])
  | some u =>
    let userCID := u.CID
    if cidRegexMatch userPre userCID then
      match w.put userCID (userJson u) with
      | .error e =>
        (.error (.wrap e (mkStr "updating user")), [.put userCID (userJson u)])
      | .ok result =>
        match w.decodeUser result with
        | .error e =>
          (.error (.wrap e (mkStr "parsing user")), [.put userCID (userJson u)])
        | .ok u2 => (.ok u2, [.put userCID (userJson u)])
    else (.error (invalidCIDErr userCIDLabel userCID), [])

/-- `API.SearchUsers` (no free-text search parameter on this resource; the
decode error message "parsing user" is the source's). -/
def searchUsers (w : World) (filterCriteria : Option (List (Str × List Str))) :
    Except GoErr (List User) × List Call :=
  let q := searchQuery none filterCriteria
  if (Values.encode q).isEmpty then fetchUsers w
  else
    let reqURL := urlWithQuery userPre (Values.encode q)
    match w.get reqURL with
    | .error e => (.error (.wrap e (mkStr "searching users")), [.get reqURL])
    | .ok result =>
      match w.decodeUserList result with
      | .error e => (.error (.wrap e (mkStr "parsing user")), [.get reqURL])
      | .ok us => (.ok us, [.get reqURL])

/-! ### Concrete worlds and records used by the closed theorems -/

/-- A transport/decoder environment whose calls all fail; only traces and
validation behaviour matter against it. -/
def trivialWorld : World :=
  ⟨fun _ => .error (.mk (mkStr "no response")),
   fun _ _ => .error (.mk (mkStr "no response")),
   fun _ _ => .error (.mk (mkStr "no response")),
   fun _ => .error (.mk (mkStr "no response")),
   fun _ => .error (.mk (mkStr "no decode")),
   fun _ => .error (.mk (mkStr "no decode")),
   fun _ => .error (.mk (mkStr "no decode")),
   fun _ => .error (.mk (mkStr "no decode")),
   fun _ => .error (.mk (mkStr "no decode")),
   fun _ => .error (.mk (mkStr "no decode"))⟩

def mC1bare : Maintenance := ⟨none, mkStr "abc123", [], [], [], [], 0, 0⟩

def mC1full : Maintenance := ⟨none, mkStr "/maintenance/1234", [], [], [], [], 0, 0⟩

def mC2cfg : Maintenance := ⟨none, mkStr "/maintenance/123", [], [], [], [], 0, 0⟩

def aC2cfg : Annot := ⟨[], mkStr "/annotation/123", [], [], [], [], 0, 0, 0, 0⟩

/-- A world whose writes succeed with body "resp" but whose record decoders
fail with the error "boom". -/
def boomWorld : World :=
  ⟨fun _ => .ok (mkStr "resp"),
   fun _ _ => .ok (mkStr "resp"),
   fun _ _ => .ok (mkStr "resp"),
   fun _ => .ok (mkStr "resp"),
   fun _ => .error (.mk (mkStr "boom")),
   fun _ => .error (.mk (mkStr "boom")),
   fun _ => .error (.mk (mkStr "boom")),
   fun _ => .error (.mk (mkStr "boom")),
   fun _ => .error (.mk (mkStr "boom")),
   fun _ => .error (.mk (mkStr "boom"))⟩

/-- A world whose transport calls fail with "connection refused". -/
def downWorld : World :=
  ⟨fun _ => .error (.mk (mkStr "connection refused")),
   fun _ _ => .error (.mk (mkStr "connection refused")),
   fun _ _ => .error (.mk (mkStr "connection refused")),
   fun _ => .error (.mk (mkStr "connection refused")),
   fun _ => .error (.mk (mkStr "no decode")),
   fun _ => .error (.mk (mkStr "no decode")),
   fun _ => .error (.mk (mkStr "no decode")),
   fun _ => .error (.mk (mkStr "no decode")),
   fun _ => .error (.mk (mkStr "no decode")),
   fun _ => .error (.mk (mkStr "no decode"))⟩

def mC3cfg : Maintenance := ⟨none, mkStr "/maintenance/1234", mkStr "host1", [], [], [], 0, 0⟩

def mC3resp : Maintenance := ⟨none, mkStr "/maintenance/99", mkStr "host1", [], [], [], 0, 0⟩

def aC3resp : Annot := ⟨mkStr "cat", mkStr "/annotation/7", [], [], [], [], 0, 0, 0, 0⟩

def uC3resp : User := ⟨mkStr "/user/5", ⟨[], []⟩, [], [], []⟩

/-- A world whose transport calls succeed with body "resp" and whose
decoders succeed with fixed records. -/
def okWorld : World :=
  ⟨fun _ => .ok (mkStr "resp"),
   fun _ _ => .ok (mkStr "resp"),
   fun _ _ => .ok (mkStr "resp"),
   fun _ => .ok (mkStr "resp"),
   fun _ => .ok mC3resp,
   fun _ => .ok [],
   fun _ => .ok aC3resp,
   fun _ => .ok [],
   fun _ => .ok uC3resp,
   fun _ => .ok []⟩

def fsC10a : List (Str × List Str) :=
  [(mkStr "f_type", [mkStr "host"]), (mkStr "f_tag", [mkStr "b", mkStr "c"])]

def fsC10b : List (Str × List Str) :=
  [(mkStr "f_tag", [mkStr "b", mkStr "c"]), (mkStr "f_type", [mkStr "host"])]

/-! ### Helper lemmas -/

theorem isPrefixOf_append_self : ∀ (l t : List Char), l.isPrefixOf (l ++ t) = true
  | [], _ => by simp [List.isPrefixOf]
  | a :: as, t => by simp [List.isPrefixOf, isPrefixOf_append_self as t]

theorem cidRegexMatch_isPrefixOf {pre s : Str} (h : cidRegexMatch pre s = true) :
    pre.isPrefixOf s = true := by
  unfold cidRegexMatch at h
  rw [Bool.and_eq_true] at h
  exact h.1

theorem cidRegexMatch_ne_nil {pre s : Str} (h : cidRegexMatch pre s = true) :
    s ≠ [] := by
  intro hs
  subst hs
  simp [cidRegexMatch] at h

theorem resolveCID_ok {label pre c y : Str}
    (h : resolveCID label pre (some c) = .ok y) :
    y = normalizeCID pre c ∧ cidRegexMatch pre y = true := by
  unfold resolveCID at h
  by_cases hc : c.isEmpty = true
  · simp [hc] at h
  · simp only [Bool.not_eq_true] at hc
    simp only [hc] at h
    by_cases hm : cidRegexMatch pre (normalizeCID pre c) = true
    · simp only [hm, if_true, Bool.false_eq_true, if_false] at h
      cases h
      exact ⟨rfl, hm⟩
    · simp only [Bool.not_eq_true] at hm
      simp [hm] at h

/-! ### Claim C9 -/

/-- C9: CID resolution is idempotent.  Whenever `resolveCID` succeeds, it
prepended `prefix ++ "/"` exactly once if the raw identifier lacked the
prefix and returned an already-prefixed identifier unchanged, and running
the resolver again on its own output succeeds with the same value. -/
theorem claimC9_resolve_idempotent (label pre c y : Str)
    (h : resolveCID label pre (some c) = .ok y) :
    resolveCID label pre (some y) = .ok y ∧
    (pre.isPrefixOf c = false → y = pre ++ '/' :: c) ∧
    (pre.isPrefixOf c = true → y = c) := by
  obtain ⟨hy, hm⟩ := resolveCID_ok h
  have hpre : pre.isPrefixOf y = true := cidRegexMatch_isPrefixOf hm
  have hne : y ≠ [] := cidRegexMatch_ne_nil hm
  refine ⟨?_, ?_, ?_⟩
  · unfold resolveCID
    simp only [List.isEmpty_eq_true, hne, if_false, normalizeCID, hpre, if_true, hm]
  · intro hnp
    rw [hy]
    unfold normalizeCID
    simp [hnp]
  · intro hp
    rw [hy]
    unfold normalizeCID
    simp [hp]

/-- Witness for C9 at the spec's concrete scenario. -/
theorem claimC9_witness :
    resolveCID maintCIDLabel maintenancePre (some (mkStr "/maintenance/abc123")) =
      .ok (mkStr "/maintenance/abc123") :=
  (claimC9_resolve_idempotent maintCIDLabel maintenancePre (mkStr "abc123")
    (mkStr "/maintenance/abc123") rfl).1

/-! ### Trace helpers for the fetch/delete operations -/

theorem fetchMaintenanceWindow_resolve_err (w : World) {cid : Option Str} {e : GoErr}
    (h : resolveCID maintCIDLabel maintenancePre cid = .error e) :
    fetchMaintenanceWindow w cid = (.error e, []) := by
  unfold fetchMaintenanceWindow
  rw [h]

theorem fetchMaintenanceWindow_trace (w : World) {cid : Option Str} {p : Str}
    (h : resolveCID maintCIDLabel maintenancePre cid = .ok p) :
    (fetchMaintenanceWindow w cid).2 = [.get p] := by
  unfold fetchMaintenanceWindow
  simp only [h]
  cases w.get p with
  | error e => rfl
  | ok r => cases h2 : w.decodeMaintenance r <;> simp [h2]

theorem deleteMaintenanceWindowByCID_resolve_err (w : World) {cid : Option Str} {e : GoErr}
    (h : resolveCID maintCIDLabel maintenancePre cid = .error e) :
    deleteMaintenanceWindowByCID w cid = ((false, some e), []) := by
  unfold deleteMaintenanceWindowByCID
  rw [h]

theorem deleteMaintenanceWindowByCID_trace (w : World) {cid : Option Str} {p : Str}
    (h : resolveCID maintCIDLabel maintenancePre cid = .ok p) :
    (deleteMaintenanceWindowByCID w cid).2 = [.delete p] := by
  unfold deleteMaintenanceWindowByCID
  simp only [h]
  cases w.delete p <;> rfl

theorem fetchAnnot_resolve_err (w : World) {cid : Option Str} {e : GoErr}
    (h : resolveCID annotCIDLabel annotPre cid = .error e) :
    fetchAnnot w cid = (.error e, []) := by
  unfold fetchAnnot
  rw [h]

theorem deleteAnnotByCID_resolve_err (w : World) {cid : Option Str} {e : GoErr}
    (h : resolveCID annotCIDLabel annotPre cid = .error e) :
    deleteAnnotByCID w cid = ((false, some e), []) := by
  unfold deleteAnnotByCID
  rw [h]

theorem resolveCID_prepends {pre c : Str} (label : Str)
    (hne : c.isEmpty = false) (hnp : pre.isPrefixOf c = false)
    (hm : cidRegexMatch pre (pre ++ '/' :: c) = true) :
    resolveCID label pre (some c) = .ok (pre ++ '/' :: c) := by
  unfold resolveCID normalizeCID
  simp only [hne, Bool.false_eq_true, if_false, hnp, hm, if_true]

theorem resolveCID_keeps {pre c : Str} (label : Str)
    (hp : pre.isPrefixOf c = true) (hm : cidRegexMatch pre c = true) :
    resolveCID label pre (some c) = .ok c := by
  have hne : c ≠ [] := cidRegexMatch_ne_nil hm
  unfold resolveCID normalizeCID
  simp only [List.isEmpty_eq_true, hne, if_false, hp, if_true, hm]

theorem resolveCID_invalid {pre c : Str} (label : Str)
    (hne : c.isEmpty = false)
    (hm : cidRegexMatch pre (normalizeCID pre c) = false) :
    resolveCID label pre (some c) =
      .error (invalidCIDErr label (normalizeCID pre c)) := by
  unfold resolveCID
  simp only [hne, Bool.false_eq_true, if_false, hm]

/-! ### Claim C4 -/

/-- C4: for Fetch and Delete, CID resolution prepends `prefix ++ "/"` exactly
when the raw identifier does not already start with the prefix, and keeps an
already-prefixed identifier unchanged; concretely for the maintenance
resource, "abc123" is fetched/deleted at "/maintenance/abc123",
"/maintenance/abc123" at itself, "" fails with the missing-identifier error
and no transport call, and "abc 123" fails with the invalid-identifier error
and no transport call. -/
theorem claimC4_fetch_delete_resolution (w : World) :
    (∀ c : Str, c.isEmpty = false → maintenancePre.isPrefixOf c = false →
       cidRegexMatch maintenancePre (maintenancePre ++ '/' :: c) = true →
       (fetchMaintenanceWindow w (some c)).2 = [.get (maintenancePre ++ '/' :: c)] ∧
       (deleteMaintenanceWindowByCID w (some c)).2 = [.delete (maintenancePre ++ '/' :: c)]) ∧
    (∀ c : Str, maintenancePre.isPrefixOf c = true →
       cidRegexMatch maintenancePre c = true →
       (fetchMaintenanceWindow w (some c)).2 = [.get c] ∧
       (deleteMaintenanceWindowByCID w (some c)).2 = [.delete c]) ∧
    (fetchMaintenanceWindow w (some (mkStr "abc123"))).2 =
      [.get (mkStr "/maintenance/abc123")] ∧
    (deleteMaintenanceWindowByCID w (some (mkStr "abc123"))).2 =
      [.delete (mkStr "/maintenance/abc123")] ∧
    (fetchMaintenanceWindow w (some (mkStr "/maintenance/abc123"))).2 =
      [.get (mkStr "/maintenance/abc123")] ∧
    fetchMaintenanceWindow w (some (mkStr "")) = (.error (missingCIDErr maintCIDLabel), []) ∧
    deleteMaintenanceWindowByCID w (some (mkStr "")) =
      ((false, some (missingCIDErr maintCIDLabel)), []) ∧
    fetchMaintenanceWindow w (some (mkStr "abc 123")) =
      (.error (invalidCIDErr maintCIDLabel (mkStr "/maintenance/abc 123")), []) ∧
    deleteMaintenanceWindowByCID w (some (mkStr "abc 123")) =
      ((false, some (invalidCIDErr maintCIDLabel (mkStr "/maintenance/abc 123"))), []) := by
  refine ⟨?_, ?_, ?_, ?_, ?_, ?_, ?_, ?_, ?_⟩
  · intro c hne hnp hm
    exact ⟨fetchMaintenanceWindow_trace w (resolveCID_prepends maintCIDLabel hne hnp hm),
      deleteMaintenanceWindowByCID_trace w (resolveCID_prepends maintCIDLabel hne hnp hm)⟩
  · intro c hp hm
    exact ⟨fetchMaintenanceWindow_trace w (resolveCID_keeps maintCIDLabel hp hm),
      deleteMaintenanceWindowByCID_trace w (resolveCID_keeps maintCIDLabel hp hm)⟩
  · exact fetchMaintenanceWindow_trace w rfl
  · exact deleteMaintenanceWindowByCID_trace w rfl
  · exact fetchMaintenanceWindow_trace w rfl
  · exact fetchMaintenanceWindow_resolve_err w rfl
  · exact deleteMaintenanceWindowByCID_resolve_err w rfl
  · exact fetchMaintenanceWindow_resolve_err w rfl
  · exact deleteMaintenanceWindowByCID_resolve_err w rfl

/-- Witness for C4, discharging the conditional parts at the raw id "xyz"
(lacking the prefix) and at "/maintenance/xyz" (carrying it). -/
theorem claimC4_witness :
    ((fetchMaintenanceWindow trivialWorld (some (mkStr "xyz"))).2 =
       [.get (maintenancePre ++ '/' :: mkStr "xyz")] ∧
     (deleteMaintenanceWindowByCID trivialWorld (some (mkStr "xyz"))).2 =
       [.delete (maintenancePre ++ '/' :: mkStr "xyz")]) ∧
    ((fetchMaintenanceWindow trivialWorld (some (mkStr "/maintenance/xyz"))).2 =
       [.get (mkStr "/maintenance/xyz")] ∧
     (deleteMaintenanceWindowByCID trivialWorld (some (mkStr "/maintenance/xyz"))).2 =
       [.delete (mkStr "/maintenance/xyz")]) :=
  ⟨(claimC4_fetch_delete_resolution trivialWorld).1 (mkStr "xyz") rfl rfl (by decide),
   (claimC4_fetch_delete_resolution trivialWorld).2.1 (mkStr "/maintenance/xyz")
     (by decide) (by decide)⟩

/-! ### Claim C5 -/

theorem cidRegexMatch_nil_right (pre : Str) : cidRegexMatch pre [] = false := by
  simp [cidRegexMatch]

theorem updateMaintenanceWindow_invalid (w : World) {m : Maintenance}
    (h : cidRegexMatch maintenancePre m.CID = false) :
    updateMaintenanceWindow w (some m) =
      (.error (invalidCIDErr maintCIDLabel m.CID), []) := by
  unfold updateMaintenanceWindow
  simp only [h, Bool.false_eq_true, if_false]

theorem updateAnnot_invalid (w : World) {a : Annot}
    (h : cidRegexMatch annotPre a.CID = false) :
    updateAnnot w (some a) = (.error (invalidCIDErr annotCIDLabel a.CID), []) := by
  unfold updateAnnot
  simp only [h, Bool.false_eq_true, if_false]

theorem updateUser_invalid (w : World) {u : User}
    (h : cidRegexMatch userPre u.CID = false) :
    updateUser w (some u) = (.error (invalidCIDErr userCIDLabel u.CID), []) := by
  unfold updateUser
  simp only [h, Bool.false_eq_true, if_false]

/-- C5: an identifier whose normalized form fails the resource pattern makes
Fetch, Update and Delete return the invalid-identifier error carrying the
offending path, with no transport call; in particular Update with an empty
record identifier fails that way for every resource. -/
theorem claimC5_invalid_id_no_transport (w : World) :
    (∀ c : Str, c.isEmpty = false →
       cidRegexMatch maintenancePre (normalizeCID maintenancePre c) = false →
       fetchMaintenanceWindow w (some c) =
         (.error (invalidCIDErr maintCIDLabel (normalizeCID maintenancePre c)), []) ∧
       deleteMaintenanceWindowByCID w (some c) =
         ((false, some (invalidCIDErr maintCIDLabel (normalizeCID maintenancePre c))), [])) ∧
    (∀ c : Str, c.isEmpty = false →
       cidRegexMatch annotPre (normalizeCID annotPre c) = false →
       fetchAnnot w (some c) =
         (.error (invalidCIDErr annotCIDLabel (normalizeCID annotPre c)), []) ∧
       deleteAnnotByCID w (some c) =
         ((false, some (invalidCIDErr annotCIDLabel (normalizeCID annotPre c))), [])) ∧
    (∀ m : Maintenance, cidRegexMatch maintenancePre m.CID = false →
       updateMaintenanceWindow w (some m) =
         (.error (invalidCIDErr maintCIDLabel m.CID), [])) ∧
    (∀ a : Annot, cidRegexMatch annotPre a.CID = false →
       updateAnnot w (some a) = (.error (invalidCIDErr annotCIDLabel a.CID), [])) ∧
    (∀ u : User, cidRegexMatch userPre u.CID = false →
       updateUser w (some u) = (.error (invalidCIDErr userCIDLabel u.CID), [])) ∧
    (∀ m : Maintenance, m.CID = [] →
       updateMaintenanceWindow w (some m) =
         (.error (invalidCIDErr maintCIDLabel []), [])) ∧
    (∀ a : Annot, a.CID = [] →
       updateAnnot w (some a) = (.error (invalidCIDErr annotCIDLabel []), [])) ∧
    (∀ u : User, u.CID = [] →
       updateUser w (some u) = (.error (invalidCIDErr userCIDLabel []), [])) := by
  refine ⟨?_, ?_, ?_, ?_, ?_, ?_, ?_, ?_⟩
  · intro c hne hm
    refine ⟨?_, ?_⟩
    · exact fetchMaintenanceWindow_resolve_err w (resolveCID_invalid maintCIDLabel hne hm)
    · exact deleteMaintenanceWindowByCID_resolve_err w (resolveCID_invalid maintCIDLabel hne hm)
  · intro c hne hm
    refine ⟨?_, ?_⟩
    · exact fetchAnnot_resolve_err w (resolveCID_invalid annotCIDLabel hne hm)
    · exact deleteAnnotByCID_resolve_err w (resolveCID_invalid annotCIDLabel hne hm)
  · exact fun m hm => updateMaintenanceWindow_invalid w hm
  · exact fun a hm => updateAnnot_invalid w hm
  · exact fun u hm => updateUser_invalid w hm
  · intro m hm
    have := updateMaintenanceWindow_invalid w (m := m) (by rw [hm]; exact cidRegexMatch_nil_right _)
    rw [hm] at this
    exact this
  · intro a hm
    have := updateAnnot_invalid w (a := a) (by rw [hm]; exact cidRegexMatch_nil_right _)
    rw [hm] at this
    exact this
  · intro u hm
    have := updateUser_invalid w (u := u) (by rw [hm]; exact cidRegexMatch_nil_right _)
    rw [hm] at this
    exact this

def mC5empty : Maintenance := ⟨none, [], [], [], [], [], 0, 0⟩

/-- Witness for C5 at the spec's concrete invalid id "abc 123" and at an
update record with an empty identifier. -/
theorem claimC5_witness :
    fetchMaintenanceWindow trivialWorld (some (mkStr "abc 123")) =
      (.error (invalidCIDErr maintCIDLabel (normalizeCID maintenancePre (mkStr "abc 123"))), []) ∧
    updateMaintenanceWindow trivialWorld (some mC5empty) =
      (.error (invalidCIDErr maintCIDLabel []), []) :=
  ⟨((claimC5_invalid_id_no_transport trivialWorld).1 (mkStr "abc 123") rfl (by decide)).1,
   (claimC5_invalid_id_no_transport trivialWorld).2.2.2.2.2.1 mC5empty rfl⟩

/-! ### Claim C6 -/

/-- C6: a nil or empty identifier makes maintenance-window and annotation
Fetch/Delete-by-identifier fail with the missing-identifier error and no
transport call, whereas FetchUser substitutes the sentinel path
"/user/current" and issues the read against it. -/
theorem claimC6_missing_id (w : World) :
    fetchMaintenanceWindow w none = (.error (missingCIDErr maintCIDLabel), []) ∧
    fetchMaintenanceWindow w (some []) = (.error (missingCIDErr maintCIDLabel), []) ∧
    deleteMaintenanceWindowByCID w none = ((false, some (missingCIDErr maintCIDLabel)), []) ∧
    deleteMaintenanceWindowByCID w (some []) =
      ((false, some (missingCIDErr maintCIDLabel)), []) ∧
    fetchAnnot w none = (.error (missingCIDErr annotCIDLabel), []) ∧
    fetchAnnot w (some []) = (.error (missingCIDErr annotCIDLabel), []) ∧
    deleteAnnotByCID w none = ((false, some (missingCIDErr annotCIDLabel)), []) ∧
    deleteAnnotByCID w (some []) = ((false, some (missingCIDErr annotCIDLabel)), []) ∧
    (fetchUser w none).2 = [.get (mkStr "/user/current")] ∧
    (fetchUser w (some [])).2 = [.get (mkStr "/user/current")] ∧
    fetchUser w none = fetchUser w (some []) := by
  refine ⟨fetchMaintenanceWindow_resolve_err w rfl, fetchMaintenanceWindow_resolve_err w rfl,
    deleteMaintenanceWindowByCID_resolve_err w rfl, deleteMaintenanceWindowByCID_resolve_err w rfl,
    fetchAnnot_resolve_err w rfl, fetchAnnot_resolve_err w rfl,
    deleteAnnotByCID_resolve_err w rfl, deleteAnnotByCID_resolve_err w rfl, ?_, ?_, rfl⟩
  · unfold fetchUser
    simp only [List.isEmpty_nil, if_true]
    have hm : cidRegexMatch userPre (userPre ++ mkStr "/current") = true := by decide
    simp only [hm, if_true]
    cases w.get (userPre ++ mkStr "/current") with
    | error e => rfl
    | ok r => cases h2 : w.decodeUser r <;> simp [h2] <;> decide
  · unfold fetchUser
    simp only [List.isEmpty_nil, if_true]
    have hm : cidRegexMatch userPre (userPre ++ mkStr "/current") = true := by decide
    simp only [hm, if_true]
    cases w.get (userPre ++ mkStr "/current") with
    | error e => rfl
    | ok r => cases h2 : w.decodeUser r <;> simp [h2] <;> decide

/-! ### Claim C7 -/

/-- C7: Search with an empty (nil or empty-string) query and an empty (nil
or zero-entry) filter set is the very same computation as FetchAll: same
transport call, same decoded result, for every resource. -/
theorem claimC7_search_empty_is_fetchall (w : World) :
    searchMaintenanceWindows w none none = fetchMaintenanceWindows w ∧
    searchMaintenanceWindows w (some []) none = fetchMaintenanceWindows w ∧
    searchMaintenanceWindows w none (some []) = fetchMaintenanceWindows w ∧
    searchMaintenanceWindows w (some []) (some []) = fetchMaintenanceWindows w ∧
    searchAnnots w none none = fetchAnnots w ∧
    searchAnnots w (some []) none = fetchAnnots w ∧
    searchAnnots w none (some []) = fetchAnnots w ∧
    searchAnnots w (some []) (some []) = fetchAnnots w ∧
    searchUsers w none = fetchUsers w ∧
    searchUsers w (some []) = fetchUsers w := by
  refine ⟨?_, ?_, ?_, ?_, ?_, ?_, ?_, ?_, ?_, ?_⟩ <;>
    simp [searchMaintenanceWindows, searchAnnots, searchUsers, searchQuery, searchBase,
      Values.encode, Values.keys, sortStrs, List.intercalate, List.intersperse]

/-! ### Claim C8 -/

/-- C8: Delete-by-record on a non-nil record is definitionally
delete-by-identifier at the record's own identifier (same result, same
transport calls), and delete-by-identifier returns `true` exactly when
validation passed and the transport delete succeeded. -/
theorem claimC8_delete_by_record (w : World) :
    (∀ m : Maintenance, deleteMaintenanceWindow w (some m) =
       deleteMaintenanceWindowByCID w (some m.CID)) ∧
    (∀ a : Annot, deleteAnnot w (some a) = deleteAnnotByCID w (some a.CID)) ∧
    (∀ c : Str, (deleteMaintenanceWindowByCID w (some c)).1.1 = true ↔
       c.isEmpty = false ∧
       cidRegexMatch maintenancePre (normalizeCID maintenancePre c) = true ∧
       ∃ r, w.delete (normalizeCID maintenancePre c) = .ok r) ∧
    (∀ c : Str, (deleteAnnotByCID w (some c)).1.1 = true ↔
       c.isEmpty = false ∧ cidRegexMatch annotPre (normalizeCID annotPre c) = true ∧
       ∃ r, w.delete (normalizeCID annotPre c) = .ok r) := by
  refine ⟨fun m => rfl, fun a => rfl, ?_, ?_⟩
  · intro c
    unfold deleteMaintenanceWindowByCID resolveCID
    by_cases hc : c.isEmpty = true
    · simp [hc]
    · simp only [Bool.not_eq_true] at hc
      simp only [hc, Bool.false_eq_true, if_false]
      by_cases hm : cidRegexMatch maintenancePre (normalizeCID maintenancePre c) = true
      · simp only [hm, if_true]
        cases hd : w.delete (normalizeCID maintenancePre c) <;> simp [hd, hm]
      · simp only [Bool.not_eq_true] at hm
        simp [hm]
  · intro c
    unfold deleteAnnotByCID resolveCID
    by_cases hc : c.isEmpty = true
    · simp [hc]
    · simp only [Bool.not_eq_true] at hc
      simp only [hc, Bool.false_eq_true, if_false]
      by_cases hm : cidRegexMatch annotPre (normalizeCID annotPre c) = true
      · simp only [hm, if_true]
        cases hd : w.delete (normalizeCID annotPre c) <;> simp [hd, hm]
      · simp only [Bool.not_eq_true] at hm
        simp [hm]

/-! ### Claim C1 -/

theorem updateMaintenanceWindow_put_trace (w : World) {m : Maintenance}
    (h : cidRegexMatch maintenancePre m.CID = true) :
    (updateMaintenanceWindow w (some m)).2 = [.put m.CID (maintenanceJson m)] := by
  unfold updateMaintenanceWindow
  simp only [h, if_true]
  cases w.put m.CID (maintenanceJson m) with
  | error e => rfl
  | ok r => cases h2 : w.decodeMaintenance r <;> simp [h2]

theorem updateAnnot_put_trace (w : World) {a : Annot}
    (h : cidRegexMatch annotPre a.CID = true) :
    (updateAnnot w (some a)).2 = [.put a.CID (annotJson a)] := by
  unfold updateAnnot
  simp only [h, if_true]
  cases w.put a.CID (annotJson a) with
  | error e => rfl
  | ok r => cases h2 : w.decodeAnnot r <;> simp [h2]

theorem updateUser_put_trace (w : World) {u : User}
    (h : cidRegexMatch userPre u.CID = true) :
    (updateUser w (some u)).2 = [.put u.CID (userJson u)] := by
  unfold updateUser
  simp only [h, if_true]
  cases w.put u.CID (userJson u) with
  | error e => rfl
  | ok r => cases h2 : w.decodeUser r <;> simp [h2]

/-- C1 counterexample: the bare id "abc123" resolves fine under the section
4.1 resolver, yet `UpdateMaintenanceWindow` on a record carrying exactly
that identifier rejects it as invalid without prepending the prefix and
without any transport call — the claim's "a bare identifier resolves and
is accepted" fails on Update. -/
theorem claimC1_counterexample :
    resolveCID maintCIDLabel maintenancePre (some (mkStr "abc123")) =
      .ok (mkStr "/maintenance/abc123") ∧
    updateMaintenanceWindow trivialWorld (some mC1bare) =
      (.error (.mk (mkStr "invalid maintenance window CID (abc123)")), []) :=
  ⟨rfl, rfl⟩

/-- C1 (amended): the Update operations do not resolve the record's
identifier through the section 4.1 resolver; they match it against the CID
pattern exactly as given, so an identifier failing the pattern (in
particular a bare id lacking the prefix) is rejected with the
invalid-identifier error and no transport call, and a pattern-matching
identifier is used verbatim as the Put path. -/
theorem claimC1_amended (w : World) :
    (∀ m : Maintenance, cidRegexMatch maintenancePre m.CID = false →
       updateMaintenanceWindow w (some m) =
         (.error (invalidCIDErr maintCIDLabel m.CID), [])) ∧
    (∀ m : Maintenance, cidRegexMatch maintenancePre m.CID = true →
       (updateMaintenanceWindow w (some m)).2 = [.put m.CID (maintenanceJson m)]) ∧
    (∀ a : Annot, cidRegexMatch annotPre a.CID = false →
       updateAnnot w (some a) = (.error (invalidCIDErr annotCIDLabel a.CID), [])) ∧
    (∀ a : Annot, cidRegexMatch annotPre a.CID = true →
       (updateAnnot w (some a)).2 = [.put a.CID (annotJson a)]) ∧
    (∀ u : User, cidRegexMatch userPre u.CID = false →
       updateUser w (some u) = (.error (invalidCIDErr userCIDLabel u.CID), [])) ∧
    (∀ u : User, cidRegexMatch userPre u.CID = true →
       (updateUser w (some u)).2 = [.put u.CID (userJson u)]) :=
  ⟨fun _ h => updateMaintenanceWindow_invalid w h,
   fun _ h => updateMaintenanceWindow_put_trace w h,
   fun _ h => updateAnnot_invalid w h,
   fun _ h => updateAnnot_put_trace w h,
   fun _ h => updateUser_invalid w h,
   fun _ h => updateUser_put_trace w h⟩

/-- Witness for the amended C1 on both branches of the maintenance Update. -/
theorem claimC1_witness :
    updateMaintenanceWindow trivialWorld (some mC1bare) =
      (.error (invalidCIDErr maintCIDLabel (mkStr "abc123")), []) ∧
    (updateMaintenanceWindow trivialWorld (some mC1full)).2 =
      [.put (mkStr "/maintenance/1234") (maintenanceJson mC1full)] :=
  ⟨(claimC1_amended trivialWorld).1 mC1bare (by decide),
   (claimC1_amended trivialWorld).2.1 mC1full (by decide)⟩

/-! ### Claim C3 -/

theorem any_ite_false {c : Prop} [Decidable c] (kv : Str × JVal) (p : Str × JVal → Bool) :
    (if c then ([] : List (Str × JVal)) else [kv]).any p = (!decide c && p kv) := by
  split <;> simp_all

theorem dkeySeverities : decide (mkStr "severities" = mkStr "_cid") = false := by decide

theorem dkeyItem : decide (mkStr "item" = mkStr "_cid") = false := by decide

theorem dkeyNotes : decide (mkStr "notes" = mkStr "_cid") = false := by decide

theorem dkeyType : decide (mkStr "type" = mkStr "_cid") = false := by decide

theorem dkeyTags : decide (mkStr "tags" = mkStr "_cid") = false := by decide

theorem dkeyStart : decide (mkStr "start" = mkStr "_cid") = false := by decide

theorem dkeyStop : decide (mkStr "stop" = mkStr "_cid") = false := by decide

theorem dkeyCategory : decide (mkStr "category" = mkStr "_cid") = false := by decide

theorem dkeyDescription : decide (mkStr "description" = mkStr "_cid") = false := by decide

theorem dkeyLastModBy : decide (mkStr "_last_modified_by" = mkStr "_cid") = false := by decide

theorem dkeyLastMod : decide (mkStr "_last_modified" = mkStr "_cid") = false := by decide

theorem dkeyCreated : decide (mkStr "_created" = mkStr "_cid") = false := by decide

theorem dkeyTitle : decide (mkStr "title" = mkStr "_cid") = false := by decide

theorem dkeyRelMetrics : decide (mkStr "rel_metrics" = mkStr "_cid") = false := by decide

theorem dkeyCid : decide (mkStr "_cid" = mkStr "_cid") = true := by decide

theorem maintenanceJson_hasKey_cid (m : Maintenance) :
    (maintenanceJson m).hasKey (mkStr "_cid") = !m.CID.isEmpty := by
  cases hc : m.CID.isEmpty <;>
    rcases hsev : m.Severities with _ | v <;>
      simp [maintenanceJson, JVal.hasKey, List.any_append, hc, hsev, any_ite_false,
        dkeySeverities, dkeyItem, dkeyNotes, dkeyType, dkeyTags, dkeyStart,
        dkeyStop, dkeyCid]

theorem annotJson_hasKey_cid (a : Annot) :
    (annotJson a).hasKey (mkStr "_cid") = !a.CID.isEmpty := by
  cases hc : a.CID.isEmpty <;>
    simp [annotJson, JVal.hasKey, List.any_append, hc, any_ite_false,
      dkeyCategory, dkeyDescription, dkeyLastModBy, dkeyLastMod, dkeyCreated,
      dkeyTitle, dkeyRelMetrics, dkeyStart, dkeyStop, dkeyCid]

theorem createMaintenanceWindow_post_trace (w : World) (m : Maintenance) :
    (createMaintenanceWindow w (some m)).2 = [.post maintenancePre (maintenanceJson m)] := by
  unfold createMaintenanceWindow
  cases hp : w.post maintenancePre (maintenanceJson m) with
  | error e => simp [hp]
  | ok r => cases h2 : w.decodeMaintenance r <;> simp [hp, h2]

theorem createAnnot_post_trace (w : World) (a : Annot) :
    (createAnnot w (some a)).2 = [.post annotPre (annotJson a)] := by
  unfold createAnnot
  cases hp : w.post annotPre (annotJson a) with
  | error e => simp [hp]
  | ok r => cases h2 : w.decodeAnnot r <;> simp [hp, h2]

/-- C3 counterexample: a record whose identifier field is set has that
identifier in the JSON body Create posts — the body does carry a
caller-supplied identifier, against the claim's "never carries". -/
theorem claimC3_counterexample :
    (maintenanceJson mC1full).hasKey (mkStr "_cid") = true ∧
    (createMaintenanceWindow trivialWorld (some mC1full)).2 =
      [.post maintenancePre (maintenanceJson mC1full)] := by
  constructor
  · decide
  · exact createMaintenanceWindow_post_trace trivialWorld mC1full

/-- C3 (amended): Create rejects a nil record with the invalid-config error
before any transport call; for a non-nil record it posts the full encoded
record — including the `_cid` field exactly when the record's identifier is
non-empty (`omitempty`) — to the bare collection prefix, and returns the
decoded server response. -/
theorem claimC3_amended (w : World) :
    createMaintenanceWindow w none =
      (.error (.mk (mkStr "invalid maintenance window config (nil)")), []) ∧
    createAnnot w none = (.error (.mk (mkStr "invalid annotation config (nil)")), []) ∧
    (∀ m : Maintenance,
       (createMaintenanceWindow w (some m)).2 =
         [.post maintenancePre (maintenanceJson m)] ∧
       (maintenanceJson m).hasKey (mkStr "_cid") = !m.CID.isEmpty ∧
       (∀ r win, w.post maintenancePre (maintenanceJson m) = .ok r →
          w.decodeMaintenance r = .ok win →
          (createMaintenanceWindow w (some m)).1 = .ok win)) ∧
    (∀ a : Annot,
       (createAnnot w (some a)).2 = [.post annotPre (annotJson a)] ∧
       (annotJson a).hasKey (mkStr "_cid") = !a.CID.isEmpty ∧
       (∀ r an, w.post annotPre (annotJson a) = .ok r →
          w.decodeAnnot r = .ok an →
          (createAnnot w (some a)).1 = .ok an)) := by
  refine ⟨rfl, rfl, ?_, ?_⟩
  · intro m
    refine ⟨createMaintenanceWindow_post_trace w m, maintenanceJson_hasKey_cid m, ?_⟩
    intro r win hr hwin
    unfold createMaintenanceWindow
    simp only [hr, hwin]
  · intro a
    refine ⟨createAnnot_post_trace w a, annotJson_hasKey_cid a, ?_⟩
    intro r an hr han
    unfold createAnnot
    simp only [hr, han]

/-- Witness for the amended C3: against a world whose post and decode
succeed, Create returns the decoded response record. -/
theorem claimC3_witness :
    (createMaintenanceWindow okWorld (some mC3cfg)).1 = .ok mC3resp :=
  ((claimC3_amended okWorld).2.2.1 mC3cfg).2.2 (mkStr "resp") mC3resp rfl rfl

/-! ### Claim C2 -/

/-- C2: evaluation of the code at the failing input.  With a working
transport and a failing response decoder, `UpdateMaintenanceWindow`
surfaces the decode error with no contextual wrapping at all, and with a
failing transport it wraps the Put error with the mismatched message
"parsing maintenance window"; its sibling `UpdateAnnotation` wraps the same
decode failure with context, showing the uniform convention the
maintenance update breaks. -/
theorem claimC2_code_bug_eval :
    updateMaintenanceWindow boomWorld (some mC2cfg) =
      (.error (.mk (mkStr "boom")), [.put (mkStr "/maintenance/123") (maintenanceJson mC2cfg)]) ∧
    (GoErr.mk (mkStr "boom")).isWrap = false ∧
    updateMaintenanceWindow downWorld (some mC2cfg) =
      (.error (.wrap (.mk (mkStr "connection refused")) (mkStr "parsing maintenance window")),
       [.put (mkStr "/maintenance/123") (maintenanceJson mC2cfg)]) ∧
    updateAnnot boomWorld (some aC2cfg) =
      (.error (.wrap (.mk (mkStr "boom")) (mkStr "parsing annotation")),
       [.put (mkStr "/annotation/123") (annotJson aC2cfg)]) :=
  ⟨rfl, rfl, rfl, rfl⟩

/-! ### Claim C10: machinery for `url.Values` determinism -/

theorem strLe_total : ∀ a b : Str, (strLe a b || strLe b a) = true
  | [], _ => by simp [strLe]
  | _ :: _, [] => by simp [strLe]
  | a :: as, b :: bs => by
    simp only [strLe, Bool.or_eq_true, Bool.and_eq_true, decide_eq_true_eq]
    rcases lt_trichotomy a b with h | h | h
    · exact Or.inl (Or.inl h)
    · subst h
      have := strLe_total as bs
      simp only [Bool.or_eq_true] at this
      rcases this with h' | h'
      · exact Or.inl (Or.inr ⟨rfl, h'⟩)
      · exact Or.inr (Or.inr ⟨rfl, h'⟩)
    · exact Or.inr (Or.inl h)

theorem strLe_trans : ∀ a b c : Str, strLe a b = true → strLe b c = true → strLe a c = true
  | [], _, _, _, _ => by simp [strLe]
  | _ :: _, [], _, h, _ => by simp [strLe] at h
  | _ :: _, _ :: _, [], _, h => by simp [strLe] at h
  | a :: as, b :: bs, c :: cs, h1, h2 => by
    simp only [strLe, Bool.or_eq_true, Bool.and_eq_true, decide_eq_true_eq] at h1 h2 ⊢
    rcases h1 with h1 | ⟨h1e, h1r⟩
    · rcases h2 with h2 | ⟨h2e, h2r⟩
      · exact Or.inl (lt_trans h1 h2)
      · exact Or.inl (h2e ▸ h1)
    · rcases h2 with h2 | ⟨h2e, h2r⟩
      · exact Or.inl (h1e ▸ h2)
      · exact Or.inr ⟨h1e.trans h2e, strLe_trans as bs cs h1r h2r⟩

theorem strLe_antisymm : ∀ a b : Str, strLe a b = true → strLe b a = true → a = b
  | [], [], _, _ => rfl
  | [], _ :: _, _, h => by simp [strLe] at h
  | _ :: _, [], h, _ => by simp [strLe] at h
  | a :: as, b :: bs, h1, h2 => by
    simp only [strLe, Bool.or_eq_true, Bool.and_eq_true, decide_eq_true_eq] at h1 h2
    rcases h1 with h1 | ⟨h1e, h1r⟩
    · rcases h2 with h2 | ⟨h2e, h2r⟩
      · exact absurd h2 (lt_asymm h1)
      · exact absurd (h2e ▸ h1) (lt_irrefl b)
    · rcases h2 with h2 | ⟨h2e, h2r⟩
      · exact absurd (h1e ▸ h2) (lt_irrefl b)
      · rw [h1e, strLe_antisymm as bs h1r h2r]

instance strLeIsAntisymm : IsAntisymm Str (fun a b => strLe a b = true) :=
  ⟨strLe_antisymm⟩

theorem sortStrs_perm_congr {l l' : List Str} (h : l.Perm l') :
    sortStrs l = sortStrs l' :=
  List.eq_of_perm_of_sorted
    (((List.mergeSort_perm l strLe).trans h).trans (List.mergeSort_perm l' strLe).symm)
    (List.sorted_mergeSort strLe_trans strLe_total l)
    (List.sorted_mergeSort strLe_trans strLe_total l')

theorem any_key_iff (v : Values) (k : Str) :
    v.any (fun p => decide (p.1 = k)) = true ↔ k ∈ v.keys := by
  simp [List.any_eq_true, Values.keys, List.mem_map]

theorem get_add_self (v : Values) (k x : Str) :
    (v.add k x).get k = v.get k ++ [x] := by
  cases hmem : v.any (fun p => decide (p.1 = k)) with
  | true =>
    have hmap : v.add k x = v.map (fun p => if p.1 = k then (p.1, p.2 ++ [x]) else p) := by
      unfold Values.add
      simp [hmem]
    rw [hmap]
    unfold Values.get
    rw [List.find?_map]
    have hcomp : ((fun p : Str × List Str => decide (p.1 = k)) ∘
        (fun p : Str × List Str => if p.1 = k then (p.1, p.2 ++ [x]) else p)) =
        (fun p : Str × List Str => decide (p.1 = k)) := by
      funext p
      by_cases hp : p.1 = k <;> simp [hp]
    rw [hcomp]
    cases hf : v.find? (fun p => decide (p.1 = k)) with
    | none =>
      rw [List.any_eq_true] at hmem
      obtain ⟨q, hq, hq2⟩ := hmem
      rw [List.find?_eq_none] at hf
      exact absurd hq2 (by simpa using hf q hq)
    | some p =>
      have hpk : p.1 = k := by
        have := List.find?_some hf
        simpa using this
      simp [hpk]
  | false =>
    have happ : v.add k x = v ++ [(k, [x])] := by
      unfold Values.add
      simp [hmem]
    rw [happ]
    unfold Values.get
    rw [List.find?_append]
    have hnone : v.find? (fun p => decide (p.1 = k)) = none := by
      rw [List.find?_eq_none]
      intro q hq hqk
      have hany : v.any (fun p => decide (p.1 = k)) = true :=
        List.any_eq_true.mpr ⟨q, hq, hqk⟩
      rw [hmem] at hany
      exact Bool.false_ne_true hany
    rw [hnone]
    simp

theorem get_add_ne (v : Values) {k k' : Str} (x : Str) (hk : k' ≠ k) :
    (v.add k x).get k' = v.get k' := by
  cases hmem : v.any (fun p => decide (p.1 = k)) with
  | true =>
    have hmap : v.add k x = v.map (fun p => if p.1 = k then (p.1, p.2 ++ [x]) else p) := by
      unfold Values.add
      simp [hmem]
    rw [hmap]
    unfold Values.get
    rw [List.find?_map]
    have hcomp : ((fun p : Str × List Str => decide (p.1 = k')) ∘
        (fun p : Str × List Str => if p.1 = k then (p.1, p.2 ++ [x]) else p)) =
        (fun p : Str × List Str => decide (p.1 = k')) := by
      funext p
      by_cases hp : p.1 = k <;> simp [hp, hk.symm]
    rw [hcomp]
    cases hf : v.find? (fun p => decide (p.1 = k')) with
    | none => rfl
    | some p =>
      have hpk : p.1 = k' := by
        have := List.find?_some hf
        simpa using this
      have hpkk : ¬ p.1 = k := by
        rw [hpk]
        exact hk
      simp [hpkk]
  | false =>
    have happ : v.add k x = v ++ [(k, [x])] := by
      unfold Values.add
      simp [hmem]
    rw [happ]
    unfold Values.get
    rw [List.find?_append]
    cases hf : v.find? (fun p => decide (p.1 = k')) with
    | none => simp [Ne.symm hk]
    | some p => rfl

theorem keys_add (v : Values) (k x : Str) :
    (v.add k x).keys =
      if v.any (fun p => decide (p.1 = k)) = true then v.keys else v.keys ++ [k] := by
  unfold Values.add Values.keys
  split
  · rw [List.map_map]
    have : (Prod.fst ∘ fun p : Str × List Str =>
        if p.1 = k then (p.1, p.2 ++ [x]) else p) = Prod.fst := by
      funext p
      by_cases hp : p.1 = k <;> simp [hp]
    rw [this]
  · simp

theorem mem_keys_add (v : Values) (k x k' : Str) :
    k' ∈ (v.add k x).keys ↔ k' ∈ v.keys ∨ k' = k := by
  rw [keys_add]
  by_cases hmem : v.any (fun p => decide (p.1 = k)) = true
  · have hkk := (any_key_iff v k).mp hmem
    simp only [hmem, if_true]
    constructor
    · exact Or.inl
    · rintro (h | h)
      · exact h
      · exact h ▸ hkk
  · simp [hmem]

theorem keys_add_nodup {v : Values} (h : v.keys.Nodup) (k x : Str) :
    ((v.add k x).keys).Nodup := by
  rw [keys_add]
  by_cases hmem : v.any (fun p => decide (p.1 = k)) = true
  · simpa [hmem] using h
  · have hk : k ∉ v.keys := fun hc => hmem ((any_key_iff v k).mpr hc)
    simp [hmem, List.nodup_append, h, hk]

theorem get_addCriteria (v : Values) (p : Str × List Str) (k : Str) :
    (addCriteria v p).get k = if p.1 = k then v.get k ++ p.2 else v.get k := by
  rcases p with ⟨pk, pvs⟩
  simp only [addCriteria]
  induction pvs generalizing v with
  | nil => by_cases hp : pk = k <;> simp [hp]
  | cons x xs ih =>
    rw [List.foldl_cons, ih (v.add pk x)]
    by_cases hp : pk = k
    · subst hp
      simp [get_add_self]
    · simp [hp, get_add_ne v x (fun he => hp he.symm)]

theorem mem_keys_addCriteria (v : Values) (p : Str × List Str) (k' : Str) :
    k' ∈ (addCriteria v p).keys ↔ k' ∈ v.keys ∨ (k' = p.1 ∧ p.2 ≠ []) := by
  rcases p with ⟨pk, pvs⟩
  simp only [addCriteria]
  induction pvs generalizing v with
  | nil => simp
  | cons x xs ih =>
    rw [List.foldl_cons, ih (v.add pk x), mem_keys_add]
    by_cases he : k' = pk <;> simp [he]

theorem keys_addCriteria_nodup {v : Values} (h : v.keys.Nodup) (p : Str × List Str) :
    ((addCriteria v p).keys).Nodup := by
  rcases p with ⟨pk, pvs⟩
  simp only [addCriteria]
  induction pvs generalizing v with
  | nil => exact h
  | cons x xs ih => exact ih (keys_add_nodup h pk x)

theorem get_buildFilters (v : Values) (fs : List (Str × List Str)) (k : Str) :
    (buildFilters v fs).get k = v.get k ++ gatherVals fs k := by
  induction fs generalizing v with
  | nil => simp [buildFilters, gatherVals]
  | cons p ps ih =>
    simp only [buildFilters, List.foldl_cons, gatherVals, List.flatMap_cons] at *
    rw [ih (addCriteria v p), get_addCriteria]
    by_cases hp : p.1 = k <;> simp [hp, List.append_assoc]

theorem mem_keys_buildFilters (v : Values) (fs : List (Str × List Str)) (k' : Str) :
    k' ∈ (buildFilters v fs).keys ↔
      k' ∈ v.keys ∨ ∃ p ∈ fs, p.1 = k' ∧ p.2 ≠ [] := by
  induction fs generalizing v with
  | nil => simp [buildFilters]
  | cons p ps ih =>
    simp only [buildFilters, List.foldl_cons] at *
    rw [ih (addCriteria v p), mem_keys_addCriteria]
    simp only [List.mem_cons]
    constructor
    · rintro ((h | ⟨he, hne⟩) | ⟨q, hq, hq1, hq2⟩)
      · exact Or.inl h
      · exact Or.inr ⟨p, Or.inl rfl, he.symm, hne⟩
      · exact Or.inr ⟨q, Or.inr hq, hq1, hq2⟩
    · rintro (h | ⟨q, hq | hq, hq1, hq2⟩)
      · exact Or.inl (Or.inl h)
      · subst hq
        exact Or.inl (Or.inr ⟨hq1.symm, hq2⟩)
      · exact Or.inr ⟨q, hq, hq1, hq2⟩

theorem keys_buildFilters_nodup {v : Values} (h : v.keys.Nodup)
    (fs : List (Str × List Str)) : ((buildFilters v fs).keys).Nodup := by
  induction fs generalizing v with
  | nil => exact h
  | cons p ps ih =>
    simp only [buildFilters, List.foldl_cons] at *
    exact ih (keys_addCriteria_nodup h p)

theorem gatherVals_perm {fs fs' : List (Str × List Str)} (h : fs.Perm fs') (k : Str) :
    (fs.map Prod.fst).Nodup → gatherVals fs k = gatherVals fs' k := by
  induction h with
  | nil => intro _; rfl
  | cons x h ih =>
    intro hn
    simp only [List.map_cons, List.nodup_cons] at hn
    simp only [gatherVals, List.flatMap_cons]
    rw [show (fun p : Str × List Str => if p.1 = k then p.2 else []) =
      fun p : Str × List Str => if p.1 = k then p.2 else [] from rfl]
    have := ih hn.2
    simp only [gatherVals] at this
    rw [this]
  | swap x y l =>
    intro hn
    simp only [List.map_cons, List.nodup_cons, List.mem_cons] at hn
    have hxy : y.1 ≠ x.1 := fun he => hn.1 (Or.inl he)
    simp only [gatherVals, List.flatMap_cons]
    by_cases hx : x.1 = k <;> by_cases hy : y.1 = k
    · exact absurd (hy.trans hx.symm) hxy
    · simp [hx, hy]
    · simp [hx, hy]
    · simp [hx, hy]
  | trans h1 h2 ih1 ih2 =>
    intro hn
    rw [ih1 hn, ih2 ((h1.map Prod.fst).nodup hn)]

theorem values_encode_congr {v v' : Values} (hk : v.keys.Perm v'.keys)
    (hg : ∀ k, v.get k = v'.get k) : Values.encode v = Values.encode v' := by
  have hs : sortStrs v.keys = sortStrs v'.keys := sortStrs_perm_congr hk
  have hget : Values.get v = Values.get v' := funext hg
  unfold Values.encode
  rw [hs, hget]

theorem searchBase_keys_nodup (sc : Option Str) : ((searchBase sc).keys).Nodup := by
  rcases sc with _ | s
  · simp [searchBase, Values.keys]
  · by_cases hs : s.isEmpty = true <;>
      simp [searchBase, hs, Values.set, Values.keys]

theorem searchQuery_perm (sc : Option Str) {fs fs' : List (Str × List Str)}
    (hperm : fs.Perm fs') (hnodup : (fs.map Prod.fst).Nodup) :
    Values.encode (searchQuery sc (some fs)) =
      Values.encode (searchQuery sc (some fs')) := by
  unfold searchQuery
  have hlen := hperm.length_eq
  by_cases h0 : 0 < fs.length
  · have h0' : 0 < fs'.length := hlen ▸ h0
    simp only [h0, h0', if_true]
    apply values_encode_congr
    · refine (List.perm_ext_iff_of_nodup
        (keys_buildFilters_nodup (searchBase_keys_nodup sc) fs)
        (keys_buildFilters_nodup (searchBase_keys_nodup sc) fs')).mpr ?_
      intro a
      rw [mem_keys_buildFilters, mem_keys_buildFilters]
      refine or_congr Iff.rfl ?_
      exact ⟨fun ⟨p, hp, h1, h2⟩ => ⟨p, hperm.mem_iff.mp hp, h1, h2⟩,
        fun ⟨p, hp, h1, h2⟩ => ⟨p, hperm.mem_iff.mpr hp, h1, h2⟩⟩
    · intro k
      rw [get_buildFilters, get_buildFilters, gatherVals_perm hperm k hnodup]
  · have h0' : ¬ 0 < fs'.length := by rw [← hlen]; exact h0
    simp [h0, h0']

/-- C10: the request URL (and hence the whole behaviour) of Search is a
deterministic function of the query and the filter mapping: iterating the
filter map in any order (any permutation of its distinct-keyed entries)
produces the identical operation result, because the query encoder sorts
keys and each key's values keep the order they were provided in. -/
theorem claimC10_search_url_deterministic (w : World) (sc : Option Str)
    {fs fs' : List (Str × List Str)} (hperm : fs.Perm fs')
    (hnodup : (fs.map Prod.fst).Nodup) :
    searchMaintenanceWindows w sc (some fs) = searchMaintenanceWindows w sc (some fs') ∧
    searchAnnots w sc (some fs) = searchAnnots w sc (some fs') ∧
    searchUsers w (some fs) = searchUsers w (some fs') := by
  have h1 := searchQuery_perm sc hperm hnodup
  have h2 := searchQuery_perm none hperm hnodup
  refine ⟨?_, ?_, ?_⟩
  · simp only [searchMaintenanceWindows]
    rw [h1]
  · simp only [searchAnnots]
    rw [h1]
  · simp only [searchUsers]
    rw [h2]

/-- Witness for C10: two different iteration orders of a two-key filter map
produce identical Search behaviour. -/
theorem claimC10_witness :
    searchMaintenanceWindows trivialWorld none (some fsC10a) =
      searchMaintenanceWindows trivialWorld none (some fsC10b) :=
  (claimC10_search_url_deterministic trivialWorld none (by decide) (by decide)).1

end Circonus
